import Mathlib

/-!
Verification of the `social_auth` identity-federation layer
(`src/transphorm/social_auth/backends/__init__.py` and
`src/transphorm/social_auth/views.py`) against its design specification.

The development shallowly embeds the parts of the code the claims are
about:

* the Python string primitives the code uses (`str(n)`, `str.title()`,
  `str.replace('old_', '')`, `str.rsplit(' ', 1)`) as functions on
  `String`/`List Char`;
* `SocialAuthBackend.username`'s collision loop, `authenticate`,
  `associate_auth` and `update_user_details` as a pure state machine over
  an explicit database of local users and `UserSocialAuth` rows;
* `OpenIDBackend.values_from_response` / `get_user_details` over a record
  carrying the optional SimpleRegistration and AttributeExchange payloads
  of a success response;
* `ConsumerBasedOAuth.auth_url` / `auth_complete`'s handling of the
  per-session unauthorized request token.

Raised `ValueError`s are embedded as an explicit error outcome carrying
the exception message; Django's `authenticate` convention of returning
`None` is embedded as a success outcome carrying no user.  The source's
unbounded `while True` username loop is embedded with an explicit fuel
parameter, `none` standing for non-termination of the source loop.
-/

namespace SocialAuth

/-! ## Python string primitives -/

/-- Decimal digits of `n`, most significant first; `fuel` bounds the
recursion so the definition is structural (any `fuel > n` yields the true
digit list, and `natDigits` below always passes such a fuel). -/
def natDigitsAux : Nat → Nat → List Nat
  | 0, _ => []
  | fuel + 1, n => if n < 10 then [n] else natDigitsAux fuel (n / 10) ++ [n % 10]

/-- Decimal digits of `n`, most significant first. -/
def natDigits (n : Nat) : List Nat := natDigitsAux (n + 1) n

def digitChar : Nat → Char
  | 0 => '0' | 1 => '1' | 2 => '2' | 3 => '3' | 4 => '4'
  | 5 => '5' | 6 => '6' | 7 => '7' | 8 => '8' | _ => '9'

def charToDigit (c : Char) : Nat := c.toNat - 48

/-- Decimal rendering of a natural number, Python's `str(n)`. -/
def natToStr (n : Nat) : String := String.mk ((natDigits n).map digitChar)

def evalDigits (l : List Nat) : Nat := l.foldl (fun a d => 10 * a + d) 0

/-- Python's `str.title()` restricted to ASCII: a letter is uppercased
when the previous character is not a letter and lowercased otherwise. -/
def pyTitleAux : List Char → Bool → List Char
  | [], _ => []
  | c :: cs, prevAlpha =>
    (if c.isAlpha then (if prevAlpha then c.toLower else c.toUpper) else c) ::
      pyTitleAux cs c.isAlpha

def pyTitle (s : String) : String := String.mk (pyTitleAux s.data false)

/-- Python's `alias.replace('old_', '')`: delete every (non-overlapping,
left-to-right) occurrence of `"old_"`. -/
def stripOldAux : List Char → List Char
  | 'o' :: 'l' :: 'd' :: '_' :: rest => stripOldAux rest
  | c :: rest => c :: stripOldAux rest
  | [] => []

def stripOld (s : String) : String := String.mk (stripOldAux s.data)

/-- Scans the reversed character list for the last separator occurrence;
`acc` holds the characters already passed over, in original order. -/
def lastSplitAux (sep : Char) : List Char → List Char → Option (List Char × List Char)
  | [], _ => none
  | c :: rest, acc => if c = sep then some (rest.reverse, acc) else lastSplitAux sep rest (c :: acc)

/-- Python's `s.rsplit(' ', 1)` destructured into two values: `none` when
`s` holds no space (the source's `ValueError` branch), otherwise the text
before and after the last space. -/
def rsplitSpace (s : String) : Option (String × String) :=
  match lastSplitAux ' ' s.data.reverse [] with
  | none => none
  | some (l, r) => some (String.mk l, String.mk r)

/-- Split a character list at every occurrence of `sep` (Python
`str.split(sep)`). -/
def splitListOn (sep : Char) : List Char → List (List Char)
  | [] => [[]]
  | c :: cs =>
    if c = sep then [] :: splitListOn sep cs
    else
      match splitListOn sep cs with
      | [] => [[c]]
      | h :: t => (c :: h) :: t

def splitChar (sep : Char) (s : String) : List String :=
  (splitListOn sep s.data).map String.mk

/-! ## Facts about the string primitives -/

theorem evalDigits_append (l : List Nat) (d : Nat) :
    evalDigits (l ++ [d]) = 10 * evalDigits l + d := by
  simp [evalDigits, List.foldl_append]

theorem natDigitsAux_eval : ∀ fuel n, n < fuel → evalDigits (natDigitsAux fuel n) = n := by
  intro fuel
  induction fuel with
  | zero => omega
  | succ fuel ih =>
    intro n hn
    by_cases h : n < 10
    · simp [natDigitsAux, h, evalDigits]
    · have hd : n / 10 < n := Nat.div_lt_self (by omega) (by omega)
      rw [natDigitsAux, if_neg h, evalDigits_append, ih (n / 10) (by omega)]
      omega

theorem natDigits_eval (n : Nat) : evalDigits (natDigits n) = n :=
  natDigitsAux_eval (n + 1) n (by omega)

theorem natDigitsAux_lt : ∀ fuel n, ∀ d ∈ natDigitsAux fuel n, d < 10 := by
  intro fuel
  induction fuel with
  | zero => simp [natDigitsAux]
  | succ fuel ih =>
    intro n d hd
    by_cases h : n < 10
    · simp [natDigitsAux, h] at hd; omega
    · rw [natDigitsAux, if_neg h] at hd
      rcases List.mem_append.1 hd with h1 | h1
      · exact ih (n / 10) d h1
      · simp at h1; omega

theorem natDigits_ne_nil (n : Nat) : natDigits n ≠ [] := by
  rw [natDigits, natDigitsAux]
  by_cases h : n < 10 <;> simp [h]

theorem charToDigit_digitChar (d : Nat) (h : d < 10) : charToDigit (digitChar d) = d := by
  interval_cases d <;> decide

theorem natToStr_inj : Function.Injective natToStr := by
  intro a b h
  have key : ∀ n, (natToStr n).data.map charToDigit = natDigits n := by
    intro n
    simp only [natToStr, List.map_map]
    rw [List.map_congr_left (fun d hd => ?_), List.map_id]
    exact charToDigit_digitChar d (natDigitsAux_lt _ _ d hd)
  have h2 : ((natToStr a).data.map charToDigit) = ((natToStr b).data.map charToDigit) := by
    rw [h]
  rw [key, key] at h2
  have := natDigits_eval a
  rw [h2, natDigits_eval] at this
  omega

theorem natToStr_ne_empty (n : Nat) : natToStr n ≠ "" := by
  simp only [natToStr]
  intro h
  have := congrArg String.data h
  simp at this
  exact natDigits_ne_nil n (by simpa [natDigits] using this)

theorem string_append_left_cancel {a b c : String} (h : a ++ b = a ++ c) : b = c := by
  have : (a ++ b).data = (a ++ c).data := by rw [h]
  simp [String.data_append] at this
  exact String.ext this

theorem string_append_ne_left {a b : String} (h : b ≠ "") : a ++ b ≠ a := by
  intro hab
  apply h
  have : (a ++ b).data = a.data := by rw [hab]
  rw [String.data_append] at this
  have h2 : b.data = [] := by
    have := congrArg List.length this
    simp at this
    exact List.eq_nil_of_length_eq_zero this
  have := congrArg String.mk h2
  simpa using this

/-! ## The username collision loop (`SocialAuthBackend.username`) -/

/-- The sequence of candidate usernames the collision loop runs through:
the base name first, then `username + str(idx)` with `idx` counting up
from 2. -/
def candName (base : String) : Nat → String
  | 0 => base
  | i + 1 => base ++ natToStr (i + 2)

/-- The `while True` collision loop of `SocialAuthBackend.username`: at
candidate index `i`, apply the configured fixer to the candidate name and
move to the next numeric suffix while the fixed name belongs to an
existing user.  `fuel` is a modeling bound for the source's unbounded
loop; `none` stands for non-termination of the source loop. -/
def usernameLoop (fixer : String → String) (taken : List String) (base : String) :
    Nat → Nat → Option String
  | 0, _ => none
  | fuel + 1, i =>
    let tried := fixer (candName base i)
    if tried ∈ taken then usernameLoop fixer taken base fuel (i + 1)
    else some tried

theorem candName_inj (base : String) : Function.Injective (candName base) := by
  intro i j h
  match i, j with
  | 0, 0 => rfl
  | 0, j + 1 => exact absurd h.symm (string_append_ne_left (natToStr_ne_empty _))
  | i + 1, 0 => exact absurd h (string_append_ne_left (natToStr_ne_empty _))
  | i + 1, j + 1 =>
    simp only [candName] at h
    have := natToStr_inj (string_append_left_cancel h)
    omega

/-- Among the first `taken.length + 1` candidate names at least one is
unused: the candidates are pairwise distinct, so a list of
`taken.length` usernames cannot contain them all. -/
theorem exists_free_cand (taken : List String) (base : String) :
    ∃ i, i ≤ taken.length ∧ candName base i ∉ taken := by
  by_contra hall
  push_neg at hall
  have hsub : ∀ x ∈ (List.range (taken.length + 1)).map (candName base), x ∈ taken := by
    intro x hx
    rcases List.mem_map.1 hx with ⟨i, hi, rfl⟩
    exact hall i (by simpa using Nat.lt_succ_iff.1 (List.mem_range.1 hi))
  have hnd : ((List.range (taken.length + 1)).map (candName base)).Nodup :=
    (List.nodup_range _).map (candName_inj base)
  have hcard : ((List.range (taken.length + 1)).map (candName base)).toFinset.card
      = taken.length + 1 := by
    rw [List.toFinset_card_of_nodup hnd]
    simp
  have hle : ((List.range (taken.length + 1)).map (candName base)).toFinset.card
      ≤ taken.toFinset.card := by
    apply Finset.card_le_card
    intro x hx
    simp only [List.mem_toFinset] at hx ⊢
    exact hsub x hx
  have := taken.toFinset_card_le
  omega

theorem usernameLoop_id_some : ∀ (taken : List String) (base : String) (fuel i j : Nat),
    i ≤ j → j < i + fuel → candName base j ∉ taken →
    ∃ k, usernameLoop (fun u => u) taken base fuel i = some (candName base k) ∧
      i ≤ k ∧ candName base k ∉ taken ∧ ∀ m, i ≤ m → m < k → candName base m ∈ taken := by
  intro taken base fuel
  induction fuel with
  | zero => omega
  | succ fuel ih =>
    intro i j hij hj hfree
    rw [usernameLoop]
    by_cases h : candName base i ∈ taken
    · simp only [h, if_true]
      have hij2 : i ≠ j := by rintro rfl; exact hfree h
      obtain ⟨k, hk, hik, hkfree, hmin⟩ := ih (i + 1) j (by omega) (by omega) hfree
      exact ⟨k, hk, by omega, hkfree, fun m hm1 hm2 => by
        rcases Nat.eq_or_lt_of_le hm1 with rfl | hm
        · exact h
        · exact hmin m hm hm2⟩
    · exact ⟨i, by simp [h], le_refl i, h, fun m hm1 hm2 => by omega⟩

/-- With the default (identity) fixer, fuel `taken.length + 1` always
suffices: the loop halts at the first candidate name not already used. -/
theorem usernameLoop_id_total (taken : List String) (base : String) (fuel : Nat)
    (hfuel : taken.length + 1 ≤ fuel) :
    ∃ k, usernameLoop (fun u => u) taken base fuel 0 = some (candName base k) ∧
      candName base k ∉ taken ∧ ∀ m, m < k → candName base m ∈ taken := by
  obtain ⟨j, hj, hfree⟩ := exists_free_cand taken base
  obtain ⟨k, hk, _, hkfree, hmin⟩ :=
    usernameLoop_id_some taken base fuel 0 j (by omega) (by omega) hfree
  exact ⟨k, hk, hkfree, fun m hm => hmin m (by omega) hm⟩

/-! ## Data model of the reconciliation engine -/

/-- The fields of the Django `User` row the engine reads or writes. -/
structure LUser where
  id : Nat
  username : String
  email : String
  first_name : String
  last_name : String
deriving DecidableEq

/-- A `UserSocialAuth` row: one `(provider, uid)` external identity bound
to a local user, with its provider extra data. -/
structure Assoc where
  userId : Nat
  provider : String
  uid : String
  extra_data : String
deriving DecidableEq

/-- The relational state `authenticate` reads and writes: the user table,
the `UserSocialAuth` table and the next primary key the user table will
assign. -/
structure DB where
  users : List LUser
  assocs : List Assoc
  nextId : Nat
deriving DecidableEq

/-- The `django.conf.settings` switches the engine consults.
`defaultUsername` stands for `SOCIAL_AUTH_DEFAULT_USERNAME` with a
callable already resolved to its value. -/
structure Cfg where
  createUsers : Bool
  forceRandom : Bool
  defaultUsername : Option String
  fixer : String → String
  changeSignalOnly : Bool
  extraDataOn : Bool

/-- The user-details dict handed to `authenticate`: `none` is an absent
key, `some ""` a present key holding an empty (falsy) value. -/
structure Details where
  username : Option String
  email : Option String
  fullname : Option String
  first_name : Option String
  last_name : Option String
deriving DecidableEq

/-- The outcome of one `authenticate` call: `ok (some u)` returns user
`u`, `ok none` is the source's `return None`, and `err msg` a raised
`ValueError` with message `msg`. -/
inductive AuthOutcome where
  | ok : Option Nat → AuthOutcome
  | err : String → AuthOutcome
deriving DecidableEq

/-! ## `SocialAuthBackend.username` -/

/-- The base name the username method starts from: the random token when
`SOCIAL_AUTH_FORCE_RANDOM_USERNAME` is set, else the details' username if
the key is present, else `SOCIAL_AUTH_DEFAULT_USERNAME` if configured,
else the random token.  `rand` stands for the md5-of-`urandom` token, an
input of the model. -/
def usernameBase (cfg : Cfg) (details : Details) (rand : String) : String :=
  if cfg.forceRandom then rand
  else
    match details.username with
    | some u => u
    | none =>
      match cfg.defaultUsername with
      | some d => d
      | none => rand

/-- `SocialAuthBackend.username`: pick the base name, then run the
collision loop against the usernames already in the user table. -/
def username (cfg : Cfg) (taken : List String) (details : Details) (rand : String)
    (fuel : Nat) : Option String :=
  usernameLoop cfg.fixer taken (usernameBase cfg details rand) fuel 0

/-! ## `SocialAuthBackend.update_user_details` -/

/-- The `details.iteritems()` pairs, in the fixed field order of the
details struct (the five fields are independent, so the dict's iteration
order does not matter). -/
def detailPairs (d : Details) : List (String × Option String) :=
  [("username", d.username), ("email", d.email), ("fullname", d.fullname),
   ("first_name", d.first_name), ("last_name", d.last_name)]

/-- `getattr(user, name, dflt)`: the `User` row has no `fullname` column,
so for that name (and any unknown name) the default comes back. -/
def getAttr (u : LUser) (name : String) (dflt : String) : String :=
  if name = "username" then u.username
  else if name = "email" then u.email
  else if name = "first_name" then u.first_name
  else if name = "last_name" then u.last_name
  else dflt

/-- `setattr(user, name, v)` as visible in the stored row: setting a
non-column name leaves the row unchanged. -/
def setAttr (u : LUser) (name : String) (v : String) : LUser :=
  if name = "username" then { u with username := v }
  else if name = "email" then { u with email := v }
  else if name = "first_name" then { u with first_name := v }
  else if name = "last_name" then { u with last_name := v }
  else u

/-- One iteration of the update loop: skip the username key, skip falsy
values, assign only when the incoming value differs from the current
attribute, and record the change in the `changed` flag. -/
def applyDetail (acc : LUser × Bool) (pair : String × Option String) : LUser × Bool :=
  match pair.2 with
  | none => acc
  | some v =>
    if pair.1 ≠ "username" ∧ v ≠ "" ∧ v ≠ getAttr acc.1 pair.1 v then (setAttr acc.1 pair.1 v, true)
    else acc

/-- `SocialAuthBackend.update_user_details` as visible in the stored user
row, returning the row and the `changed` flag the field loop computed.
When `SOCIAL_AUTH_CHANGE_SIGNAL_ONLY` is set the field loop is skipped
entirely.  The `pre_update` / `socialauth_registered` signal handlers are
external collaborators that only contribute booleans to `changed`; with
`changed` false the row is not saved, but the unsaved row equals the
stored one, so the stored row is the same either way. -/
def update_user_details (cfg : Cfg) (u : LUser) (d : Details) : LUser × Bool :=
  if cfg.changeSignalOnly then (u, false)
  else (detailPairs d).foldl applyDetail (u, false)

/-! ## `SocialAuthBackend.authenticate` -/

/-- Boolean match for the `(provider, uid)` lookup filter. -/
def assocMatch (provider uid : String) (a : Assoc) : Bool :=
  a.provider == provider && a.uid == uid

/-- `UserSocialAuth.objects.get(provider=..., uid=...)` over the
association table (the storage-level unique index keeps at most one
match). -/
def lookupAssoc (assocs : List Assoc) (provider uid : String) : Option Assoc :=
  assocs.find? (assocMatch provider uid)

/-- Write back a (possibly updated) user row into the user table. -/
def saveUser (users : List LUser) (u : LUser) : List LUser :=
  users.map (fun v => if v.id = u.id then u else v)

/-- The tail of `authenticate` once the user is resolved: run
`update_user_details` on the row and return the user.  The base backend's
`extra_data` hook returns `''`, which is falsy, so the extra-data branch
never writes the association here. -/
def finishAuth (cfg : Cfg) (db : DB) (userId : Nat) (details : Details) : AuthOutcome × DB :=
  match db.users.find? (fun v => v.id == userId) with
  | none => (.ok (some userId), db)
  | some u => (.ok (some userId), { db with users := saveUser db.users (update_user_details cfg u details).1 })

/-- `SocialAuthBackend.authenticate` after its backend/argument
validation, for one `(provider, uid)` identity extracted from the
provider response.  `userArg` is the `user` keyword argument (the
logged-in user of the associate flow), `rand` the random username token
and `fuel` the bound on the source's unbounded username loop (`none`
stands for the source looping forever).  Raised `ValueError`s become
`err` outcomes; `return None` becomes `ok none`. -/
def authenticate (cfg : Cfg) (db : DB) (provider uid : String) (details : Details)
    (userArg : Option Nat) (rand : String) (fuel : Nat) : Option (AuthOutcome × DB) :=
  match lookupAssoc db.assocs provider uid with
  | some a =>
    match userArg with
    | some b =>
      if b ≠ a.userId then some (.err "Account already in use.", db)
      else some (finishAuth cfg db a.userId details)
    | none => some (finishAuth cfg db a.userId details)
  | none =>
    match userArg with
    | some b =>
      let a : Assoc := ⟨b, provider, uid, ""⟩
      some (finishAuth cfg { db with assocs := db.assocs ++ [a] } b details)
    | none =>
      if cfg.createUsers then
        match username cfg (db.users.map (fun u => u.username)) details rand fuel with
        | none => none
        | some uname =>
          let u : LUser := ⟨db.nextId, uname, (details.email.getD ""), "", ""⟩
          let a : Assoc := ⟨u.id, provider, uid, ""⟩
          some (finishAuth cfg ⟨db.users ++ [u], db.assocs ++ [a], db.nextId + 1⟩ u.id details)
      else some (.ok none, db)

/-! ## `OpenIDBackend`: attribute mapping -/

/-- The module-level attribute tables (name, alias). -/
def OLD_AX_ATTRS : List (String × String) :=
  [("http://schema.openid.net/contact/email", "old_email"),
   ("http://schema.openid.net/namePerson", "old_fullname"),
   ("http://schema.openid.net/namePerson/friendly", "old_nickname")]

def AX_SCHEMA_ATTRS : List (String × String) :=
  [("http://axschema.org/contact/email", "email"),
   ("http://axschema.org/namePerson", "fullname"),
   ("http://axschema.org/namePerson/first", "first_name"),
   ("http://axschema.org/namePerson/last", "last_name"),
   ("http://axschema.org/namePerson/friendly", "nickname")]

def SREG_ATTR : List (String × String) :=
  [("email", "email"), ("fullname", "fullname"), ("nickname", "nickname")]

/-- An OpenID success response as the mapper sees it: the
SimpleRegistration payload (`SRegResponse.fromSuccessResponse`, `none`
when the extension is absent) and the AttributeExchange payload
(`FetchResponse.fromSuccessResponse`), each a map from attribute name or
type URI to its value. -/
structure OpenIDResp where
  sreg : Option (List (String × String))
  ax : Option (List (String × String))
deriving DecidableEq

/-- A Python dict of strings as a partial map; `updKV`/`updAll` are
`dict.update`, later pairs overwriting earlier ones. -/
def updKV (m : String → Option String) (kv : String × String) : String → Option String :=
  fun k => if k = kv.1 then some kv.2 else m k

def updAll (m : String → Option String) (pairs : List (String × String)) :
    String → Option String :=
  pairs.foldl updKV m

/-- `SRegResponse.get(name)` followed by `or ''`. -/
def sregGet (m : List (String × String)) (name : String) : String :=
  (m.lookup name).getD ""

/-- `FetchResponse.getSingle(src, '')`: the single value, or the empty
default when the response carries no value for that type URI. -/
def axGetSingle (m : List (String × String)) (src : String) : String :=
  (m.lookup src).getD ""

/-- `OpenIDBackend.values_from_response`: start from an empty dict, merge
the SimpleRegistration values (when requested and present), then merge
the AttributeExchange values (when requested and present), the `old_`
prefix stripped from aliases so both schemas land on the same keys. -/
def values_from_response (resp : OpenIDResp) (sregNames axNames : List (String × String)) :
    String → Option String :=
  let v0 : String → Option String := fun _ => none
  let v1 :=
    if sregNames.isEmpty then v0
    else
      match resp.sreg with
      | none => v0
      | some m => updAll v0 (sregNames.map (fun p => (p.2, sregGet m p.1)))
  if axNames.isEmpty then v1
  else
    match resp.ax with
    | none => v1
    | some m => updAll v1 (axNames.map (fun p => (stripOld p.2, axGetSingle m p.1)))

/-- The user-details dict returned by `OpenIDBackend.get_user_details`
(every key present, `''` for a missing value). -/
structure UserDetails where
  username : String
  email : String
  fullname : String
  first_name : String
  last_name : String
deriving DecidableEq

/-- The dict inside `get_user_details` after
`values.update(values_from_response(...))`: response values overwrite the
five `''` defaults. -/
def mergedValues (resp : OpenIDResp) : String → Option String :=
  fun k =>
    match values_from_response resp SREG_ATTR (OLD_AX_ATTRS ++ AX_SCHEMA_ATTRS) k with
    | some v => some v
    | none =>
      if k = "username" ∨ k = "email" ∨ k = "fullname" ∨ k = "first_name" ∨ k = "last_name"
      then some "" else none

/-- The name-derivation block of `get_user_details`: join first/last with
a single space when only they are present; otherwise try
`fullname.rsplit(' ', 1)`, the whole full name becoming the last name
when there is no space to split on.  Returns
`(fullname, first_name, last_name)`. -/
def nameFields (fullname first_name last_name : String) : String × String × String :=
  if fullname = "" ∧ first_name ≠ "" ∧ last_name ≠ "" then
    (first_name ++ " " ++ last_name, first_name, last_name)
  else if fullname ≠ "" then
    match rsplitSpace fullname with
    | some (f, l) => (fullname, f, l)
    | none => (fullname, first_name, fullname)
  else (fullname, first_name, last_name)

/-- `OpenIDBackend.get_user_details`. -/
def get_user_details (resp : OpenIDResp) : UserDetails :=
  let values := mergedValues resp
  let nf := nameFields ((values "fullname").getD "") ((values "first_name").getD "")
    ((values "last_name").getD "")
  { username :=
      if (values "username").getD "" = "" then pyTitle nf.2.1 ++ pyTitle nf.2.2
      else (values "username").getD ""
    email := (values "email").getD ""
    fullname := nf.1
    first_name := nf.2.1
    last_name := nf.2.2 }

/-! ## `ConsumerBasedOAuth`: the pending unauthorized token -/

/-- An `OAuthToken` of the oauth library: key and secret. -/
structure OAuthTok where
  key : String
  secret : String
deriving DecidableEq

/-- `OAuthToken.to_string()` (urlencoded key/secret; the model covers
tokens whose fields need no percent-escaping). -/
def tokenToString (t : OAuthTok) : String :=
  "oauth_token=" ++ t.key ++ "&oauth_token_secret=" ++ t.secret

/-- `OAuthToken.from_string(s)`: parse the query string back into the
token. -/
def tokenFromString (s : String) : OAuthTok :=
  let pairs := (splitChar '&' s).map (fun p =>
    match splitChar '=' p with
    | k :: v :: _ => (k, v)
    | [k] => (k, "")
    | [] => ("", ""))
  { key := (pairs.lookup "oauth_token").getD ""
    secret := (pairs.lookup "oauth_token_secret").getD "" }

/-- The browser session as the backend uses it: one optional string per
key. -/
def Session : Type := String → Option String

def sessionSet (s : Session) (k v : String) : Session :=
  fun k2 => if k2 = k then some v else s k2

/-- The session key `ConsumerBasedOAuth` stores the pending token under. -/
def sessKey (backendName : String) : String := backendName ++ "unauthorized_token_name"

/-- The session effect of `ConsumerBasedOAuth.auth_url`: serialize the
unauthorized request token fetched from the provider (`t`, a network
input of the model) into the session before redirecting. -/
def auth_url_session (backendName : String) (s : Session) (t : OAuthTok) : Session :=
  sessionSet s (sessKey backendName) (tokenToString t)

/-- `ConsumerBasedOAuth.auth_complete` up to the provider round-trips: read
the pending token back from the session (a missing or falsy-empty value
raises `Missing unauthorized token`), compare its key against the
callback's `oauth_token` parameter (mismatch raises `Incorrect tokens`),
and otherwise hand the parsed token on to the access-token exchange.  The
returned session is the session as the method leaves it. -/
def auth_complete (backendName : String) (s : Session) (data : String → Option String) :
    Except String (OAuthTok × Session) :=
  match s (sessKey backendName) with
  | none => .error "Missing unauthorized token"
  | some ser =>
    if ser = "" then .error "Missing unauthorized token"
    else
      let token := tokenFromString ser
      if token.key ≠ ((data "oauth_token").getD "no-token") then .error "Incorrect tokens"
      else .ok (token, s)

/-! ## Concrete fixtures -/

/-- All settings at their defaults: auto-creation on, no forced random
username, no default username, identity fixer, field sync on, extra data
on. -/
def cfgDefault : Cfg := ⟨true, false, none, fun u => u, false, true⟩

/-- Defaults except `SOCIAL_AUTH_CREATE_USERS = False`. -/
def cfgNoCreate : Cfg := { cfgDefault with createUsers := false }

def detailsAda : Details := ⟨some "ada", some "ada@example.org", none, none, none⟩

def detailsAlice : Details := ⟨some "alice", none, none, none, none⟩

/-! ## Helper lemmas about `authenticate` -/

theorem finishAuth_fst (cfg : Cfg) (db : DB) (userId : Nat) (details : Details) :
    (finishAuth cfg db userId details).1 = .ok (some userId) := by
  unfold finishAuth
  cases db.users.find? (fun v => v.id == userId) <;> rfl

theorem finishAuth_assocs (cfg : Cfg) (db : DB) (userId : Nat) (details : Details) :
    (finishAuth cfg db userId details).2.assocs = db.assocs := by
  unfold finishAuth
  cases db.users.find? (fun v => v.id == userId) <;> rfl

/-! ## Helper lemmas about the string splitters -/

theorem splitListOn_not_mem (sep : Char) : ∀ (l : List Char), sep ∉ l →
    splitListOn sep l = [l] := by
  intro l
  induction l with
  | nil => intro _; rfl
  | cons c cs ih =>
    intro h
    have hc : ¬ c = sep := fun hc => h (hc ▸ List.mem_cons_self c cs)
    rw [splitListOn, if_neg hc, ih (fun hm => h (List.mem_cons_of_mem c hm))]

theorem splitListOn_append (sep : Char) : ∀ (a b : List Char), sep ∉ a →
    splitListOn sep (a ++ sep :: b) = a :: splitListOn sep b := by
  intro a
  induction a with
  | nil => intro b _; simp [splitListOn]
  | cons c cs ih =>
    intro b h
    have hc : ¬ c = sep := fun hc => h (hc ▸ List.mem_cons_self c cs)
    rw [List.cons_append, splitListOn, if_neg hc,
      ih b (fun hm => h (List.mem_cons_of_mem c hm))]

theorem lastSplitAux_none (sep : Char) : ∀ (r acc : List Char), sep ∉ r →
    lastSplitAux sep r acc = none := by
  intro r
  induction r with
  | nil => intro acc _; rfl
  | cons c cs ih =>
    intro acc h
    have hc : ¬ c = sep := fun hc => h (hc ▸ List.mem_cons_self c cs)
    rw [lastSplitAux, if_neg hc]
    exact ih (c :: acc) (fun hm => h (List.mem_cons_of_mem c hm))

theorem lastSplitAux_found (sep : Char) : ∀ (r acc : List Char), sep ∈ r →
    ∃ pre rest, r = pre ++ sep :: rest ∧ sep ∉ pre ∧
      lastSplitAux sep r acc = some (rest.reverse, pre.reverse ++ acc) := by
  intro r
  induction r with
  | nil => intro acc h; exact absurd h (List.not_mem_nil sep)
  | cons c cs ih =>
    intro acc h
    by_cases hc : c = sep
    · subst hc
      exact ⟨[], cs, rfl, List.not_mem_nil c, by rw [lastSplitAux, if_pos rfl]; simp⟩
    · have hmem : sep ∈ cs := by
        rcases List.mem_cons.1 h with h1 | h1
        · exact absurd h1.symm hc
        · exact h1
      obtain ⟨pre, rest, hr, hnp, haux⟩ := ih (c :: acc) hmem
      refine ⟨c :: pre, rest, by rw [List.cons_append, hr], ?_, ?_⟩
      · intro hm
        rcases List.mem_cons.1 hm with h1 | h1
        · exact hc h1.symm
        · exact hnp h1
      · rw [lastSplitAux, if_neg hc, haux]
        simp

theorem rsplitSpace_none (s : String) (h : ' ' ∉ s.data) : rsplitSpace s = none := by
  unfold rsplitSpace
  rw [lastSplitAux_none ' ' s.data.reverse [] (by simpa using h)]

theorem rsplitSpace_last (s : String) (h : ' ' ∈ s.data) :
    ∃ a b : List Char, s.data = a ++ ' ' :: b ∧ ' ' ∉ b ∧
      rsplitSpace s = some (String.mk a, String.mk b) := by
  obtain ⟨pre, rest, hr, hnp, haux⟩ :=
    lastSplitAux_found ' ' s.data.reverse [] (by simpa using h)
  refine ⟨rest.reverse, pre.reverse, ?_, by simpa using hnp, ?_⟩
  · have := congrArg List.reverse hr
    simpa using this
  · unfold rsplitSpace
    rw [haux]
    simp

/-! ## Helper lemmas about the OAuth token serialization -/

theorem string_mk_data (s : String) : String.mk s.data = s := rfl

theorem splitChar_mk_append (sep : Char) (a : List Char) (s : String)
    (ha : sep ∉ a) (hs : sep ∉ s.data) :
    splitChar sep (String.mk (a ++ sep :: s.data)) = [String.mk a, s] := by
  show (splitListOn sep ((String.mk (a ++ sep :: s.data)).data)).map String.mk = _
  rw [show (String.mk (a ++ sep :: s.data)).data = a ++ sep :: s.data from rfl,
    splitListOn_append sep _ _ ha, splitListOn_not_mem sep _ hs]
  simp [string_mk_data]

/-- `from_string` undoes `to_string` for tokens whose key and secret
contain neither separator character (the urlencoding of such fields is
the identity). -/
theorem tokenFromString_toString (t : OAuthTok)
    (hk1 : '&' ∉ t.key.data) (hk2 : '=' ∉ t.key.data)
    (hs1 : '&' ∉ t.secret.data) (hs2 : '=' ∉ t.secret.data) :
    tokenFromString (tokenToString t) = t := by
  have hmk : tokenToString t
      = String.mk (("oauth_token=".data ++ t.key.data) ++ '&' ::
        ("oauth_token_secret=".data ++ t.secret.data)) := by
    apply String.ext
    simp [tokenToString, String.data_append]
  have hsplit : splitChar '&' (tokenToString t)
      = [String.mk ("oauth_token=".data ++ t.key.data),
         String.mk ("oauth_token_secret=".data ++ t.secret.data)] := by
    rw [hmk]
    have := splitChar_mk_append '&' ("oauth_token=".data ++ t.key.data)
      (String.mk ("oauth_token_secret=".data ++ t.secret.data)) ?_ ?_
    · simpa using this
    · intro hm
      rcases List.mem_append.1 hm with h1 | h1
      · revert h1; decide
      · exact hk1 h1
    · show '&' ∉ "oauth_token_secret=".data ++ t.secret.data
      intro hm
      rcases List.mem_append.1 hm with h1 | h1
      · revert h1; decide
      · exact hs1 h1
  have hkpart : splitChar '=' (String.mk ("oauth_token=".data ++ t.key.data))
      = ["oauth_token", t.key] := by
    have he : ("oauth_token=".data ++ t.key.data : List Char)
        = "oauth_token".data ++ '=' :: t.key.data := by
      rw [show ("oauth_token=".data : List Char) = "oauth_token".data ++ ['='] from by decide]
      simp
    rw [he]
    have := splitChar_mk_append '=' "oauth_token".data t.key (by decide) hk2
    simpa [string_mk_data] using this
  have hspart : splitChar '=' (String.mk ("oauth_token_secret=".data ++ t.secret.data))
      = ["oauth_token_secret", t.secret] := by
    have he : ("oauth_token_secret=".data ++ t.secret.data : List Char)
        = "oauth_token_secret".data ++ '=' :: t.secret.data := by
      rw [show ("oauth_token_secret=".data : List Char)
        = "oauth_token_secret".data ++ ['='] from by decide]
      simp
    rw [he]
    have := splitChar_mk_append '=' "oauth_token_secret".data t.secret (by decide) hs2
    simpa [string_mk_data] using this
  unfold tokenFromString
  rw [hsplit]
  simp only [List.map_cons, List.map_nil, hkpart, hspart]
  rfl

/-! ## Claim theorems -/

/-- **C1.** When the `(provider, uid)` pair is already associated to local
user `a.userId` and `authenticate` is called with a different existing
user `b`, it raises `ValueError('Account already in use.')` (the
account-conflict failure) and leaves the database — in particular the
association — entirely unchanged: no rebind, no merge. -/
theorem authenticate_conflict (cfg : Cfg) (db : DB) (provider uid : String)
    (details : Details) (rand : String) (fuel : Nat) (a : Assoc) (b : Nat)
    (ha : lookupAssoc db.assocs provider uid = some a) (hb : b ≠ a.userId) :
    authenticate cfg db provider uid details (some b) rand fuel
      = some (.err "Account already in use.", db) := by
  unfold authenticate
  rw [ha]
  simp [hb]

theorem authenticate_conflict_witness :
    authenticate cfgDefault ⟨[⟨7, "a", "e", "f", "l"⟩], [⟨7, "github", "123", ""⟩], 8⟩
        "github" "123" detailsAda (some 9) "r" 5
      = some (.err "Account already in use.",
        ⟨[⟨7, "a", "e", "f", "l"⟩], [⟨7, "github", "123", ""⟩], 8⟩) :=
  authenticate_conflict cfgDefault _ "github" "123" detailsAda "r" 5
    ⟨7, "github", "123", ""⟩ 9 (by decide) (by decide)

/-- **C5 (amended).** With no association for the pair, no `user`
argument, and `SOCIAL_AUTH_CREATE_USERS = False`, `authenticate` fails by
returning no user (`return None`; no exception is raised) and creates
neither a local user nor an association: the database comes back
unchanged. -/
theorem authenticate_no_autocreate (cfg : Cfg) (db : DB) (provider uid : String)
    (details : Details) (rand : String) (fuel : Nat)
    (hl : lookupAssoc db.assocs provider uid = none) (hc : cfg.createUsers = false) :
    authenticate cfg db provider uid details none rand fuel = some (.ok none, db) := by
  unfold authenticate
  rw [hl]
  simp [hc]

theorem authenticate_no_autocreate_witness :
    authenticate cfgNoCreate ⟨[], [], 1⟩ "github" "999" detailsAda none "r" 5
      = some (.ok none, ⟨[], [], 1⟩) :=
  authenticate_no_autocreate cfgNoCreate ⟨[], [], 1⟩ "github" "999" detailsAda "r" 5
    (by decide) (by decide)

/-- **C5 (counterexample to the claim as stated).** In the
auto-creation-disabled scenario the outcome is the success constructor
carrying no user — the source's `return None` — not a raised error: the
claimed distinct `AutoCreateDisabledError` failure does not exist in the
code. -/
theorem authenticate_no_autocreate_returns_none :
    authenticate cfgNoCreate ⟨[], [], 1⟩ "github" "123" detailsAda none "r" 5
      = some (.ok none, ⟨[], [], 1⟩) := by decide

/-- **C4 (amended).** The username collision loop has no iteration cap
and no exhaustion error: with the default identity fixer it terminates
for every finite user table, returning a free candidate name (first
conjunct), and for every bound `B` there is a user table on which it
keeps retrying past `B` suffixes and still succeeds (second conjunct) —
so no fixed bound caps the iteration count and no input produces a
`UsernameExhaustedError`-like outcome. -/
theorem usernameLoop_unbounded_terminates :
    (∀ (taken : List String) (base : String) (fuel : Nat), taken.length + 1 ≤ fuel →
      ∃ k, usernameLoop (fun u => u) taken base fuel 0 = some (candName base k) ∧
        candName base k ∉ taken) ∧
    (∀ B : Nat, usernameLoop (fun u => u) ((List.range (B + 1)).map (candName "alice"))
        "alice" (B + 2) 0 = some (candName "alice" (B + 1))) := by
  constructor
  · intro taken base fuel hfuel
    obtain ⟨k, hk, hfree, _⟩ := usernameLoop_id_total taken base fuel hfuel
    exact ⟨k, hk, hfree⟩
  · intro B
    set taken := (List.range (B + 1)).map (candName "alice") with htaken
    have hlen : taken.length = B + 1 := by simp [htaken]
    have hmem : ∀ m, m < B + 1 → candName "alice" m ∈ taken := by
      intro m hm
      rw [htaken]
      exact List.mem_map.2 ⟨m, List.mem_range.2 hm, rfl⟩
    have hfree : candName "alice" (B + 1) ∉ taken := by
      rw [htaken]
      intro h
      rcases List.mem_map.1 h with ⟨i, hi, hic⟩
      have := candName_inj "alice" hic
      rw [this] at hi
      exact absurd (List.mem_range.1 hi) (by omega)
    obtain ⟨k, hk, _, hkfree, hmin⟩ :=
      usernameLoop_id_some taken "alice" (B + 2) 0 (B + 1) (by omega) (by omega) hfree
    have hkB : k = B + 1 := by
      by_contra hne
      rcases Nat.lt_or_ge k (B + 1) with h1 | h1
      · exact hkfree (hmem k h1)
      · exact hfree (hmin (B + 1) (by omega) (by omega))
    rw [hkB] at hk
    exact hk

/-- **C4 (counterexample to the claim as stated).** A concrete run in
which the loop resolves 41 successive collisions — past any plausible
bounded cap — and still returns a username rather than failing: the code
never fails with `UsernameExhaustedError`, it keeps retrying. -/
theorem usernameLoop_no_cap_at_40 :
    usernameLoop (fun u => u) ((List.range 41).map (candName "alice")) "alice" 42 0
      = some "alice42" := by decide

/-- **C7.** With the default identity fixer, collisions are resolved by
appending an increasing numeric suffix to the base name (`name`,
`name2`, `name3`, …) and the first unused candidate is returned (first
conjunct); in particular, with `alice` and `alice2` taken, base name
`alice` yields `alice3` (second conjunct). -/
theorem username_suffix_resolution :
    (∀ (cfg : Cfg) (taken : List String) (details : Details) (rand : String) (fuel : Nat),
      cfg.fixer = (fun u => u) → taken.length + 1 ≤ fuel →
      ∃ k, username cfg taken details rand fuel
          = some (candName (usernameBase cfg details rand) k) ∧
        candName (usernameBase cfg details rand) k ∉ taken ∧
        ∀ m, m < k → candName (usernameBase cfg details rand) m ∈ taken) ∧
    username cfgDefault ["alice", "alice2"] detailsAlice "r" 3 = some "alice3" := by
  constructor
  · intro cfg taken details rand fuel hfix hfuel
    unfold username
    rw [hfix]
    exact usernameLoop_id_total taken (usernameBase cfg details rand) fuel hfuel
  · decide

/-- **C3 (amended).** The unauthorized request token saved into the
session at begin-auth is retrievable at the matching complete-auth, but
it is not deleted when consumed: `auth_complete` hands back the very
session it was given, the pending entry still in place (first conjunct).
A complete-auth on a session with no pending entry fails with
`ValueError('Missing unauthorized token')` — before the token comparison
or any provider exchange (second conjunct). -/
theorem oauth_pending_state :
    (∀ (backendName : String) (s : Session) (t : OAuthTok) (data : String → Option String),
      '&' ∉ t.key.data → '=' ∉ t.key.data → '&' ∉ t.secret.data → '=' ∉ t.secret.data →
      (data "oauth_token").getD "no-token" = t.key →
      auth_complete backendName (auth_url_session backendName s t) data
        = .ok (t, auth_url_session backendName s t)) ∧
    (∀ (backendName : String) (s : Session) (data : String → Option String),
      s (sessKey backendName) = none →
      auth_complete backendName s data = .error "Missing unauthorized token") := by
  constructor
  · intro backendName s t data hk1 hk2 hs1 hs2 hdata
    have hslot : auth_url_session backendName s t (sessKey backendName)
        = some (tokenToString t) := by
      unfold auth_url_session sessionSet
      rw [if_pos rfl]
    have hne : tokenToString t ≠ "" := by
      intro h
      have := congrArg String.data h
      simp [tokenToString, String.data_append] at this
    unfold auth_complete
    rw [hslot]
    simp only [if_neg hne]
    rw [tokenFromString_toString t hk1 hk2 hs1 hs2, hdata]
    simp
  · intro backendName s data h
    unfold auth_complete
    rw [h]

def tokTwitter : OAuthTok := ⟨"tok", "sec"⟩

/-- The session after a begin-auth on an empty session. -/
def sessAfterBegin : Session := auth_url_session "twitter" (fun _ => none) tokTwitter

def dataTok : String → Option String :=
  fun k => if k = "oauth_token" then some "tok" else none

/-- **C3 (counterexample to the claim as stated).** A successful
complete-auth leaves the pending token in the session untouched: the
returned session is the input session and the pending entry is still
present afterwards, so the state is neither single-use nor deleted when
consumed, and an identical second complete-auth on the returned session
succeeds again. -/
theorem oauth_pending_not_deleted :
    auth_complete "twitter" sessAfterBegin dataTok = .ok (tokTwitter, sessAfterBegin) ∧
    sessAfterBegin (sessKey "twitter") = some "oauth_token=tok&oauth_token_secret=sec" :=
  ⟨rfl, rfl⟩

/-- An AttributeExchange-only response carrying just a full name. -/
def respAda : OpenIDResp := ⟨none, some [("http://axschema.org/namePerson", "Ada Lovelace")]⟩

/-- An AttributeExchange-only response carrying just first/last names. -/
def respJoin : OpenIDResp :=
  ⟨none, some [("http://axschema.org/namePerson/first", "Ada"),
               ("http://axschema.org/namePerson/last", "Lovelace")]⟩

/-- An AttributeExchange-only response whose full name's only whitespace
is a tab, not a space. -/
def respTab : OpenIDResp := ⟨none, some [("http://axschema.org/namePerson", "Ada\tLovelace")]⟩

/-- **C6 (amended).** When the merged attributes carry only a full name,
`get_user_details` splits it at the last space character — not at an
arbitrary whitespace boundary — into first and last name; a full name
containing no space lands whole in the last name with the first name left
empty (first conjunct).  When only first and last names are present they
are joined with a single space into the full name (second conjunct). -/
theorem get_user_details_name_split :
    (∀ (resp : OpenIDResp) (f : String),
      mergedValues resp "fullname" = some f → f ≠ "" →
      mergedValues resp "first_name" = some "" →
      mergedValues resp "last_name" = some "" →
      ((' ' ∈ f.data →
        ∃ a b : String, f = a ++ " " ++ b ∧ ' ' ∉ b.data ∧
          (get_user_details resp).first_name = a ∧ (get_user_details resp).last_name = b) ∧
       (' ' ∉ f.data →
        (get_user_details resp).first_name = "" ∧ (get_user_details resp).last_name = f))) ∧
    (∀ (resp : OpenIDResp) (fn ln : String),
      mergedValues resp "fullname" = some "" →
      mergedValues resp "first_name" = some fn → fn ≠ "" →
      mergedValues resp "last_name" = some ln → ln ≠ "" →
      (get_user_details resp).fullname = fn ++ " " ++ ln) := by
  constructor
  · intro resp f hf hne hfn hln
    constructor
    · intro hsp
      obtain ⟨a, b, hdata, hnb, hrs⟩ := rsplitSpace_last f hsp
      refine ⟨String.mk a, String.mk b, ?_, hnb, ?_, ?_⟩
      · apply String.ext
        simpa [String.data_append] using hdata
      · simp only [get_user_details, hf, hfn, hln, Option.getD_some]
        rw [nameFields, if_neg (by simp [hne]), if_pos hne, hrs]
      · simp only [get_user_details, hf, hfn, hln, Option.getD_some]
        rw [nameFields, if_neg (by simp [hne]), if_pos hne, hrs]
    · intro hsp
      have hrs := rsplitSpace_none f hsp
      constructor
      · simp only [get_user_details, hf, hfn, hln, Option.getD_some]
        rw [nameFields, if_neg (by simp [hne]), if_pos hne, hrs]
      · simp only [get_user_details, hf, hfn, hln, Option.getD_some]
        rw [nameFields, if_neg (by simp [hne]), if_pos hne, hrs]
  · intro resp fn ln hf hfn hne1 hln hne2
    simp only [get_user_details, hf, hfn, hln, Option.getD_some]
    rw [nameFields, if_pos ⟨rfl, hne1, hne2⟩]

/-- Concrete instances of the split and join directions: the spec's own
`"Ada Lovelace"` example splits into `Ada` / `Lovelace`, and
`Ada` + `Lovelace` joins into `"Ada Lovelace"`. -/
theorem get_user_details_name_split_witness :
    (get_user_details respAda).first_name = "Ada" ∧
    (get_user_details respAda).last_name = "Lovelace" ∧
    (get_user_details respJoin).fullname = "Ada Lovelace" := by decide

/-- **C6 (counterexample to the claim as stated).** A full name whose
last whitespace boundary is a tab is not split there: `rsplit(' ', 1)`
only splits on the space character, so `"Ada\tLovelace"` lands whole in
the last name and the first name stays empty, where the claim says
firstName `"Ada"` / lastName `"Lovelace"`. -/
theorem get_user_details_tab_not_split :
    (get_user_details respTab).first_name = "" ∧
    (get_user_details respTab).last_name = "Ada\tLovelace" := by decide

/-- **C10.** When the merged attributes yield a non-empty full name with
no whitespace at all, no first/last name values and no explicit username,
`get_user_details` puts the entire full name in the last name, leaves the
first name empty, and derives the username as the title-cased
concatenation of that empty first name and the full name. -/
theorem get_user_details_no_space_fullname (resp : OpenIDResp) (f : String)
    (hf : mergedValues resp "fullname" = some f) (hne : f ≠ "")
    (hws : ∀ c ∈ f.data, ¬ c.isWhitespace)
    (hfn : mergedValues resp "first_name" = some "")
    (hln : mergedValues resp "last_name" = some "")
    (hun : mergedValues resp "username" = some "") :
    (get_user_details resp).last_name = f ∧
    (get_user_details resp).first_name = "" ∧
    (get_user_details resp).username = pyTitle "" ++ pyTitle f := by
  have hsp : ' ' ∉ f.data := fun hm => hws ' ' hm (by decide)
  have hrs := rsplitSpace_none f hsp
  refine ⟨?_, ?_, ?_⟩
  · simp only [get_user_details, hf, hfn, hln, Option.getD_some]
    rw [nameFields, if_neg (by simp [hne]), if_pos hne, hrs]
  · simp only [get_user_details, hf, hfn, hln, Option.getD_some]
    rw [nameFields, if_neg (by simp [hne]), if_pos hne, hrs]
  · simp only [get_user_details, hf, hfn, hln, hun, Option.getD_some]
    rw [if_pos trivial, nameFields, if_neg (by simp), if_pos hne, hrs]

/-- An AttributeExchange-only response with the single-word full name
`"Zaphod"`. -/
def respZaphod : OpenIDResp := ⟨none, some [("http://axschema.org/namePerson", "Zaphod")]⟩

theorem get_user_details_no_space_fullname_witness :
    (get_user_details respZaphod).last_name = "Zaphod" ∧
    (get_user_details respZaphod).first_name = "" ∧
    (get_user_details respZaphod).username = pyTitle "" ++ pyTitle "Zaphod" :=
  get_user_details_no_space_fullname respZaphod "Zaphod" (by decide) (by decide)
    (by decide) (by decide) (by decide) (by decide)

/-- The update loop writes a field exactly when the detail value is a
present, non-empty string different from the current field value. -/
def detailWrites (v : Option String) (cur : String) : Bool :=
  match v with
  | none => false
  | some s => s ≠ "" && s ≠ cur

theorem applyDetail_username (acc : LUser × Bool) (v : Option String) :
    applyDetail acc ("username", v) = acc := by
  cases v with
  | none => rfl
  | some s => simp [applyDetail]

theorem applyDetail_fullname (acc : LUser × Bool) (v : Option String) :
    applyDetail acc ("fullname", v) = acc := by
  cases v with
  | none => rfl
  | some s => simp [applyDetail, getAttr]

theorem applyDetail_email (acc : LUser × Bool) (v : Option String) :
    applyDetail acc ("email", v) =
      if detailWrites v acc.1.email then ({ acc.1 with email := v.getD "" }, true) else acc := by
  cases v with
  | none => simp [detailWrites, applyDetail]
  | some s =>
    simp only [applyDetail, detailWrites, getAttr]
    by_cases h1 : s = "" <;> by_cases h2 : s = acc.1.email <;>
      simp [h1, h2, setAttr]

theorem applyDetail_first_name (acc : LUser × Bool) (v : Option String) :
    applyDetail acc ("first_name", v) =
      if detailWrites v acc.1.first_name then ({ acc.1 with first_name := v.getD "" }, true)
      else acc := by
  cases v with
  | none => simp [detailWrites, applyDetail]
  | some s =>
    simp only [applyDetail, detailWrites, getAttr]
    by_cases h1 : s = "" <;> by_cases h2 : s = acc.1.first_name <;>
      simp [h1, h2, setAttr]

theorem applyDetail_last_name (acc : LUser × Bool) (v : Option String) :
    applyDetail acc ("last_name", v) =
      if detailWrites v acc.1.last_name then ({ acc.1 with last_name := v.getD "" }, true)
      else acc := by
  cases v with
  | none => simp [detailWrites, applyDetail]
  | some s =>
    simp only [applyDetail, detailWrites, getAttr]
    by_cases h1 : s = "" <;> by_cases h2 : s = acc.1.last_name <;>
      simp [h1, h2, setAttr]

/-- **C9.** During `update_user_details` the username and id are never
altered; with `SOCIAL_AUTH_CHANGE_SIGNAL_ONLY` set no field assignment
happens at all (the user comes back untouched with no change flagged);
otherwise each user field among email, first and last name is overwritten
exactly when the incoming canonical value is present, non-empty and
different from the current value, and the change flag is set exactly when
some field was written.  (The fullname detail never writes: the user row
has no such column, so `getattr`'s default makes its compare-and-set
vacuous.) -/
theorem update_user_details_spec (cfg : Cfg) (u : LUser) (d : Details) :
    (update_user_details cfg u d).1.username = u.username ∧
    (update_user_details cfg u d).1.id = u.id ∧
    (cfg.changeSignalOnly = true → update_user_details cfg u d = (u, false)) ∧
    (cfg.changeSignalOnly = false →
      ((update_user_details cfg u d).1.email
          = if detailWrites d.email u.email then d.email.getD "" else u.email) ∧
      ((update_user_details cfg u d).1.first_name
          = if detailWrites d.first_name u.first_name then d.first_name.getD ""
            else u.first_name) ∧
      ((update_user_details cfg u d).1.last_name
          = if detailWrites d.last_name u.last_name then d.last_name.getD ""
            else u.last_name) ∧
      ((update_user_details cfg u d).2
          = (detailWrites d.email u.email || detailWrites d.first_name u.first_name ||
             detailWrites d.last_name u.last_name))) := by
  cases hcso : cfg.changeSignalOnly with
  | true => simp [update_user_details, hcso]
  | false =>
    have hfold : update_user_details cfg u d
        = List.foldl applyDetail (u, false) (detailPairs d) := by
      simp [update_user_details, hcso]
    rw [hfold, detailPairs]
    simp only [List.foldl_cons, List.foldl_nil, applyDetail_username, applyDetail_email,
      applyDetail_fullname, applyDetail_first_name, applyDetail_last_name]
    cases he : detailWrites d.email u.email <;>
      cases hf : detailWrites d.first_name u.first_name <;>
        cases hl : detailWrites d.last_name u.last_name <;>
          simp_all

/-- An AttributeExchange response carrying only the legacy
(`schema.openid.net`) email attribute. -/
def respLegacyOnly : OpenIDResp :=
  ⟨none, some [("http://schema.openid.net/contact/email", "ada@example.org")]⟩

/-- An AttributeExchange response carrying the email attribute under both
the legacy and the current (`axschema.org`) type URI. -/
def respBothSchemas : OpenIDResp :=
  ⟨none, some [("http://schema.openid.net/contact/email", "legacy@example.org"),
               ("http://axschema.org/contact/email", "current@example.org")]⟩

/-- **C8.** Evaluating the merge at the two decisive inputs: when both
schemas carry the email, the current `axschema.org` value wins (second
conjunct, as the claim says); but when only the legacy
`schema.openid.net` value is present, the merged email is the empty
string — `getSingle`'s `''` default for the absent current-schema
attribute overwrites the legacy value instead of falling back to it
(first conjunct), contradicting the claimed legacy fallback.  The
`old_`-aliased legacy table exists precisely to provide that fallback, so
this is a slip in the code, not in the claim. -/
theorem values_from_response_legacy_fallback_lost :
    values_from_response respLegacyOnly SREG_ATTR (OLD_AX_ATTRS ++ AX_SCHEMA_ATTRS) "email"
      = some "" ∧
    values_from_response respBothSchemas SREG_ATTR (OLD_AX_ATTRS ++ AX_SCHEMA_ATTRS) "email"
      = some "current@example.org" := by decide

theorem finishAuth_spec (cfg : Cfg) (db : DB) (userId : Nat) (details : Details) :
    ∃ db', finishAuth cfg db userId details = (.ok (some userId), db') ∧
      db'.assocs = db.assocs := by
  unfold finishAuth
  cases db.users.find? (fun v => v.id == userId) with
  | none => exact ⟨db, rfl, rfl⟩
  | some u => exact ⟨_, rfl, rfl⟩

/-- **C2.** Starting from a database whose `(provider, uid)` row count
respects the storage-level unique constraint, with auto-creation enabled
and the default identity fixer (fuel covering the finite user table, as
the source's unbounded loop needs no more): two `authenticate` calls for
the same pair with no `user` argument both return the same local user,
and afterwards exactly one association row exists for the pair — one call
creates it if it was missing, and no call ever duplicates it. -/
theorem authenticate_idempotent (cfg : Cfg) (db : DB) (provider uid : String)
    (details : Details) (rand1 rand2 : String) (fuel1 fuel2 : Nat)
    (hfix : cfg.fixer = (fun u => u)) (hc : cfg.createUsers = true)
    (huniq : (db.assocs.filter (assocMatch provider uid)).length ≤ 1)
    (hfuel : db.users.length + 1 ≤ fuel1) :
    ∃ u db1 db2,
      authenticate cfg db provider uid details none rand1 fuel1
        = some (.ok (some u), db1) ∧
      authenticate cfg db1 provider uid details none rand2 fuel2
        = some (.ok (some u), db2) ∧
      (db2.assocs.filter (assocMatch provider uid)).length = 1 := by
  cases hla : lookupAssoc db.assocs provider uid with
  | some a =>
    obtain ⟨db1, h1, ha1⟩ := finishAuth_spec cfg db a.userId details
    obtain ⟨db2, h2, ha2⟩ := finishAuth_spec cfg db1 a.userId details
    have hla1 : lookupAssoc db1.assocs provider uid = some a := by
      unfold lookupAssoc
      rw [ha1]
      exact hla
    refine ⟨a.userId, db1, db2, ?_, ?_, ?_⟩
    · unfold authenticate
      rw [hla]
      show some (finishAuth cfg db a.userId details) = some (.ok (some a.userId), db1)
      rw [h1]
    · unfold authenticate
      rw [hla1]
      show some (finishAuth cfg db1 a.userId details) = some (.ok (some a.userId), db2)
      rw [h2]
    · have hm : a ∈ db.assocs.filter (assocMatch provider uid) :=
        List.mem_filter.2 ⟨List.mem_of_find?_eq_some hla, List.find?_some hla⟩
      have hpos : 0 < (db.assocs.filter (assocMatch provider uid)).length :=
        List.length_pos.2 (List.ne_nil_of_mem hm)
      rw [ha2, ha1]
      omega
  | none =>
    have hkk : ∃ uname, username cfg (db.users.map fun u => u.username) details rand1 fuel1
        = some uname := by
      unfold username
      rw [hfix]
      obtain ⟨k, hk, _, _⟩ := usernameLoop_id_total (db.users.map fun u => u.username)
        (usernameBase cfg details rand1) fuel1 (by simpa using hfuel)
      exact ⟨_, hk⟩
    obtain ⟨uname, hus⟩ := hkk
    obtain ⟨db1, h1, ha1⟩ := finishAuth_spec cfg
      ⟨db.users ++ [⟨db.nextId, uname, details.email.getD "", "", ""⟩],
       db.assocs ++ [⟨db.nextId, provider, uid, ""⟩], db.nextId + 1⟩ db.nextId details
    have hfilnil : db.assocs.filter (assocMatch provider uid) = [] := by
      rw [List.filter_eq_nil_iff]
      intro x hx
      simpa using List.find?_eq_none.1 hla x hx
    have hla1 : lookupAssoc db1.assocs provider uid = some ⟨db.nextId, provider, uid, ""⟩ := by
      unfold lookupAssoc
      rw [ha1]
      show List.find? _ (db.assocs ++ [⟨db.nextId, provider, uid, ""⟩]) = _
      have hla' : List.find? (assocMatch provider uid) db.assocs = none := hla
      rw [List.find?_append, hla']
      simp [assocMatch]
    obtain ⟨db2, h2, ha2⟩ := finishAuth_spec cfg db1 db.nextId details
    refine ⟨db.nextId, db1, db2, ?_, ?_, ?_⟩
    · unfold authenticate
      rw [hla]
      show (if cfg.createUsers then _ else _) = _
      rw [hc, if_pos rfl, hus]
      show some (finishAuth cfg _ db.nextId details) = some (.ok (some db.nextId), db1)
      rw [h1]
    · unfold authenticate
      rw [hla1]
      show some (finishAuth cfg db1 db.nextId details) = some (.ok (some db.nextId), db2)
      rw [h2]
    · rw [ha2, ha1]
      show ((db.assocs ++ [(⟨db.nextId, provider, uid, ""⟩ : Assoc)]).filter
        (assocMatch provider uid)).length = 1
      rw [List.filter_append, hfilnil]
      simp [assocMatch]

theorem authenticate_idempotent_witness :
    ∃ u db1 db2,
      authenticate cfgDefault ⟨[], [], 1⟩ "github" "123" detailsAda none "r" 1
        = some (.ok (some u), db1) ∧
      authenticate cfgDefault db1 "github" "123" detailsAda none "r2" 5
        = some (.ok (some u), db2) ∧
      (db2.assocs.filter (assocMatch "github" "123")).length = 1 :=
  authenticate_idempotent cfgDefault ⟨[], [], 1⟩ "github" "123" detailsAda "r" "r2" 1 5
    rfl rfl (by decide) (by decide)

end SocialAuth
